import Mathlib

/-!
Shallow embedding of the wparty repository (server `src/server/server.js` and
the client sync controller of `src/extension/content/content.js`).

JavaScript `Map` objects are embedded as association lists that keep the
insertion order: `set` replaces the (unique) entry in place or appends,
`delete` removes it.  JS `null`/`undefined` string fields are embedded as
`Option String`; JS string truthiness (`""` is falsy) is made explicit where
the source relies on it.  `Date.now()` values and the random draws feeding
`generatePartyCode` are passed in as explicit arguments.
-/

/-- JS `Map.get`: value of the first (only) entry with the given key. -/
def mapGet {α : Type} : List (String × α) → String → Option α
  | [], _ => none
  | (k', v') :: rest, k => if k' = k then some v' else mapGet rest k

/-- JS `Map.set`: replace the entry in place if the key is present, else append. -/
def mapSet {α : Type} : List (String × α) → String → α → List (String × α)
  | [], k, v => [(k, v)]
  | (k', v') :: rest, k, v =>
    if k' = k then (k, v) :: rest else (k', v') :: mapSet rest k v

/-- JS `Map.delete`: remove the entry with the given key. -/
def mapDelete {α : Type} : List (String × α) → String → List (String × α)
  | [], _ => []
  | (k', v') :: rest, k =>
    if k' = k then mapDelete rest k else (k', v') :: mapDelete rest k

/-- JS `Map.has`. -/
def mapHas {α : Type} (m : List (String × α)) (k : String) : Bool :=
  (mapGet m k).isSome

/-- JS truthiness of a nullable string (`null`, `undefined` and `""` are falsy). -/
def jsStrTruthy : Option String → Bool
  | some s => s ≠ ""
  | none => false

/-- JS `x || null` on a nullable string. -/
def jsOrNull (u : Option String) : Option String :=
  match u with
  | some s => if s = "" then none else some s
  | none => none

/-- JS `message.username || 'Anonymous'`. -/
def jsUsernameOr (u : Option String) : String :=
  match u with
  | some s => if s = "" then "Anonymous" else s
  | none => "Anonymous"

/-- server.js: `HEARTBEAT_INTERVAL = 30000`. -/
def HEARTBEAT_INTERVAL : Nat := 30000

/-- server.js: `PARTY_IDLE_TIMEOUT = 24 * 60 * 60 * 1000`. -/
def PARTY_IDLE_TIMEOUT : Nat := 24 * 60 * 60 * 1000

/-- server.js `hashPassword`: `null` for a falsy password, else the digest of the
password under the one-way hash (the SHA-256 hex digest is kept abstract as a
function argument `hash`). -/
def hashPasswordJS (hash : String → String) : Option String → Option String
  | none => none
  | some p => if p = "" then none else some (hash p)

/-- server.js `generatePartyCode`'s alphabet
`'ABCDEFGHJKLMNPQRSTUVWXYZ23456789'` (32 characters, confusable ones omitted). -/
def partyCodeChars : List Char :=
  ['A','B','C','D','E','F','G','H','J','K','L','M','N','P','Q','R','S','T',
   'U','V','W','X','Y','Z','2','3','4','5','6','7','8','9']

theorem partyCodeChars_length : partyCodeChars.length = 32 := rfl

/-- server.js `generatePartyCode`: six characters, each picked by one call to
`Math.floor(Math.random() * chars.length)` (an index in `Fin 32`). -/
def generatePartyCode (draws : Fin 6 → Fin 32) : String :=
  String.mk ((List.finRange 6).map
    (fun i => partyCodeChars.get (Fin.cast partyCodeChars_length.symm (draws i))))

/-- A party participant record (`{ws, username, videoUrl}`); the `ws` handle is
identified with the participant's connection id, whose current writability is
supplied externally as `openOf : String → Bool` where broadcasts need it. -/
structure Participant where
  username : String
  videoUrl : Option String
deriving DecidableEq, Repr

/-- The party-wide shared video descriptor (`message.data` of `video-info`). -/
structure VideoInfo where
  url : Option String
  title : String
  duration : Rat
deriving DecidableEq, Repr

/-- One party record of the `parties` map. -/
structure Party where
  participants : List (String × Participant)
  video : Option VideoInfo
  passwordHash : Option String
  persistent : Bool
  createdAt : Nat
  lastActivity : Nat
deriving DecidableEq, Repr

/-- The global `parties` map (party code → party). -/
abbrev PartiesMap := List (String × Party)

/-- One row of `getParticipantList`'s result. -/
structure ParticipantEntry where
  username : String
  videoUrl : Option String
  synced : Bool
deriving DecidableEq, Repr

/-- Payload of a `sync` message (`data.currentTime`, `data.playbackRate`). -/
structure SyncData where
  currentTime : Option Rat
  playbackRate : Option Rat
deriving DecidableEq, Repr

/-- The server→client messages, one constructor per `type` value built by
server.js.  (No constructor carries a password field; `party-created` carries
only the boolean `hasPassword`.) -/
inductive ServerMsg where
  | partyCreated (partyCode username : String) (hasPassword persistent : Bool)
      (timestamp : Nat)
  | joined (partyCode username : String) (participants : List ParticipantEntry)
      (video : Option VideoInfo) (timestamp : Nat)
  | leftMsg (timestamp : Nat)
  | participantsMsg (participants : List ParticipantEntry) (timestamp : Nat)
  | syncMsg (action : String) (data : SyncData) (username : Option String)
      (timestamp : Nat)
  | videoInfoMsg (data : VideoInfo) (username : Option String) (timestamp : Nat)
  | errorMsg (message : String) (timestamp : Nat)
  | pong (timestamp : Nat)
deriving DecidableEq, Repr

/-- The client→server messages dispatched by `ws.on('message')`. -/
inductive ClientMsg where
  | createParty (username password : Option String) (persistent : Bool)
  | join (partyCode : String) (username password : Option String)
  | leave
  | sync (action : String) (data : SyncData)
  | videoInfo (data : VideoInfo)
  | ping
  | unknown (t : String)
deriving DecidableEq, Repr

/-- The per-connection closure variables of `wss.on('connection')`. -/
structure ConnState where
  clientId : String
  currentPartyCode : Option String
  username : Option String
  isAlive : Bool
deriving DecidableEq, Repr

/-- server.js: `party.video ? party.video.url : null`. -/
def partyVideoUrlOf (party : Party) : Option String :=
  match party.video with
  | some v => v.url
  | none => none

/-- One row built by `getParticipantList`'s `map` callback:
`{username, videoUrl: client.videoUrl || null,
  synced: partyVideoUrl ? (client.videoUrl === partyVideoUrl) : false}`. -/
def participantEntry (party : Party) (c : Participant) : ParticipantEntry :=
  let pvu := partyVideoUrlOf party
  { username := c.username
    videoUrl := jsOrNull c.videoUrl
    synced := if jsStrTruthy pvu then c.videoUrl == pvu else false }

/-- server.js `getParticipantList`. -/
def getParticipantList (parties : PartiesMap) (code : String) :
    List ParticipantEntry :=
  match mapGet parties code with
  | none => []
  | some party => party.participants.map (fun e => participantEntry party e.2)

/-- server.js `cleanupEmptyParty`: delete an empty non-persistent party; stamp
`lastActivity = Date.now()` on an empty persistent one; leave the rest alone. -/
def cleanupEmptyParty (parties : PartiesMap) (code : String) (now : Nat) :
    PartiesMap :=
  match mapGet parties code with
  | some party =>
    if party.participants.length = 0 then
      if party.persistent then
        mapSet parties code { party with lastActivity := now }
      else
        mapDelete parties code
    else parties
  | none => parties

/-- The sweep condition of `cleanupIdleParties`:
persistent, empty, and `now - lastActivity > PARTY_IDLE_TIMEOUT`. -/
def partyIdleExpired (party : Party) (now : Nat) : Bool :=
  party.persistent && party.participants.length = 0 &&
    decide (now - party.lastActivity > PARTY_IDLE_TIMEOUT)

/-- server.js `cleanupIdleParties` (the hourly sweep). -/
def cleanupIdleParties (parties : PartiesMap) (now : Nat) : PartiesMap :=
  parties.filter (fun e => ! partyIdleExpired e.2 now)

/-- server.js `broadcastToParty`'s sender filter: `clientId !== senderId`
(with `senderId = null` every participant passes). -/
def senderPasses (senderId : Option String) (cid : String) : Bool :=
  match senderId with
  | some s => cid ≠ s
  | none => true

/-- server.js `broadcastToParty`: send to every participant of the party whose
socket is open, except the sender.  The result is the delivery list
(recipient connection id, message); an unknown code delivers nothing. -/
def broadcastToParty (parties : PartiesMap) (code : String) (msg : ServerMsg)
    (senderId : Option String) (openOf : String → Bool) :
    List (String × ServerMsg) :=
  match mapGet parties code with
  | none => []
  | some party =>
    party.participants.filterMap (fun e =>
      if senderPasses senderId e.1 && openOf e.1 then some (e.1, msg) else none)

/-- server.js `broadcastToAllInParty`: send to every participant whose socket
is open, the sender included. -/
def broadcastToAllInParty (parties : PartiesMap) (code : String)
    (msg : ServerMsg) (openOf : String → Bool) : List (String × ServerMsg) :=
  match mapGet parties code with
  | none => []
  | some party =>
    party.participants.filterMap (fun e =>
      if openOf e.1 then some (e.1, msg) else none)

/-- Remove a participant from a party in the map
(`parties.get(code).participants.delete(clientId)`). -/
def removeParticipant (parties : PartiesMap) (code clientId : String) :
    PartiesMap :=
  match mapGet parties code with
  | some party =>
    mapSet parties code
      { party with participants := mapDelete party.participants clientId }
  | none => parties

/-- The shared remove-then-broadcast-then-cleanup sequence that server.js
repeats verbatim in the `join` case (removal from the previous party), the
`leave` case and the `close` handler:
`participants.delete(clientId); broadcastToAllInParty(code, participants-msg);
cleanupEmptyParty(code)`. -/
def removeAndCleanup (openOf : String → Bool) (parties : PartiesMap)
    (code clientId : String) (ts : Nat) :
    PartiesMap × List (String × ServerMsg) :=
  let partiesA := removeParticipant parties code clientId
  let outA := broadcastToAllInParty partiesA code
    (.participantsMsg (getParticipantList partiesA code) ts) openOf
  (cleanupEmptyParty partiesA code ts, outA)

/-- The `join` case's removal from the previous party:
`if (currentPartyCode && parties.has(currentPartyCode)) { ... }`. -/
def joinRemovePrevious (openOf : String → Bool) (parties : PartiesMap)
    (conn : ConnState) (ts : Nat) : PartiesMap × List (String × ServerMsg) :=
  match conn.currentPartyCode with
  | some cur =>
    if mapHas parties cur then removeAndCleanup openOf parties cur conn.clientId ts
    else (parties, [])
  | none => (parties, [])

/-- server.js `ws.on('message')` dispatch.  Arguments: `hash` the SHA-256 hex
digest (abstract), `openOf` the current writability of each connection id's
socket, `newCode` the value `generatePartyCode()` returns in the
`create-party` case, `ts` the `Date.now()` taken at the top of the handler.
Result: the updated `parties` map, the updated connection closure state, and
the list of (recipient, message) sends in emission order.  In the `join` case,
when the joining connection was the last member of its own non-persistent
target party, the removal deletes the party and the subsequent
`joinedParty.participants.set` throws a `TypeError` that the surrounding
`catch` answers with `error 'Invalid message format'`; that path is embedded
explicitly. -/
def handleMessage (hash : String → String) (openOf : String → Bool)
    (newCode : String) (parties : PartiesMap) (conn : ConnState)
    (msg : ClientMsg) (ts : Nat) :
    PartiesMap × ConnState × List (String × ServerMsg) :=
  match msg with
  | .createParty mu mpw mper =>
    let username := jsUsernameOr mu
    let passwordHash := hashPasswordJS hash mpw
    let party : Party :=
      { participants := [(conn.clientId, { username := username, videoUrl := none })]
        video := none
        passwordHash := passwordHash
        persistent := mper
        createdAt := ts
        lastActivity := ts }
    (mapSet parties newCode party,
     { conn with currentPartyCode := some newCode, username := some username },
     [(conn.clientId,
       .partyCreated newCode username (jsStrTruthy passwordHash) mper ts)])
  | .join pc mu mpw =>
    let username := jsUsernameOr mu
    let conn1 := { conn with username := some username }
    match mapGet parties pc with
    | none =>
      -- `!parties.has(joinPartyCode)` (and the redundant `!party` re-check)
      (parties, conn1, [(conn.clientId, .errorMsg "Party not found" ts)])
    | some party =>
      if jsStrTruthy party.passwordHash &&
          hashPasswordJS hash mpw != party.passwordHash then
        (parties, conn1, [(conn.clientId, .errorMsg "Incorrect password" ts)])
      else
        let rp := joinRemovePrevious openOf parties conn ts
        let conn2 := { conn1 with currentPartyCode := some pc }
        match mapGet rp.1 pc with
        | none =>
          -- `joinedParty` is `undefined`: the `.participants.set` throws and
          -- the catch block replies with the generic parse error
          (rp.1, conn2, rp.2 ++ [(conn.clientId, .errorMsg "Invalid message format" ts)])
        | some jp =>
          let jp' : Party :=
            { jp with
                participants := mapSet jp.participants conn.clientId
                  { username := username, videoUrl := none }
                lastActivity := ts }
          let parties3 := mapSet rp.1 pc jp'
          (parties3, conn2,
           rp.2 ++
             [(conn.clientId,
               .joined pc username (getParticipantList parties3 pc) jp'.video ts)] ++
             broadcastToAllInParty parties3 pc
               (.participantsMsg (getParticipantList parties3 pc) ts) openOf)
  | .leave =>
    match conn.currentPartyCode with
    | some cur =>
      if mapHas parties cur then
        let rc := removeAndCleanup openOf parties cur conn.clientId ts
        (rc.1, { conn with currentPartyCode := none },
         rc.2 ++ [(conn.clientId, .leftMsg ts)])
      else (parties, conn, [(conn.clientId, .leftMsg ts)])
    | none => (parties, conn, [(conn.clientId, .leftMsg ts)])
  | .sync action data =>
    match conn.currentPartyCode with
    | none =>
      (parties, conn, [(conn.clientId, .errorMsg "Not in a party" ts)])
    | some cur =>
      (parties, conn,
       broadcastToParty parties cur (.syncMsg action data conn.username ts)
         (some conn.clientId) openOf)
  | .videoInfo data =>
    match conn.currentPartyCode with
    | some cur =>
      (match mapGet parties cur with
       | some party =>
         let party1 := { party with video := some data }
         let party2 :=
           match mapGet party1.participants conn.clientId with
           | some part =>
             { party1 with
                 participants := mapSet party1.participants conn.clientId
                   { part with videoUrl := jsOrNull data.url } }
           | none => party1
         let parties' := mapSet parties cur party2
         (parties', conn,
          broadcastToParty parties' cur (.videoInfoMsg data conn.username ts)
            (some conn.clientId) openOf ++
          broadcastToAllInParty parties' cur
            (.participantsMsg (getParticipantList parties' cur) ts) openOf)
       | none => (parties, conn, []))
    | none => (parties, conn, [])
  | .ping =>
    (parties, conn, [(conn.clientId, .pong ts)])
  | .unknown _ =>
    (parties, conn, [])

/-- server.js `ws.on('close')`: remove from the party, broadcast the new
participant list, clean up (same sequence as `joinRemovePrevious`). -/
def handleClose (openOf : String → Bool) (parties : PartiesMap)
    (conn : ConnState) (ts : Nat) : PartiesMap × List (String × ServerMsg) :=
  joinRemovePrevious openOf parties conn ts

/-- server.js `ws.on('pong')`: a transport-level pong marks the connection alive. -/
def handlePong (conn : ConnState) : ConnState :=
  { conn with isAlive := true }

/-- One connection's step of the `heartbeatInterval` callback: terminate
(`none`) if no pong arrived since the previous probe, else clear the mark and
probe again. -/
def heartbeatStep (conn : ConnState) : Option ConnState :=
  if conn.isAlive = false then none
  else some { conn with isAlive := false }

/-! ## Client Sync Controller (src/extension/content/content.js) -/

/-- content.js: `SYNC_COOLDOWN = 300` (ms), the outbound cooldown and also the
delay of the `setTimeout` that clears `isSyncing`. -/
def SYNC_COOLDOWN : Nat := 300

/-- content.js: `TIME_DRIFT_TOLERANCE = 1` (second). -/
def TIME_DRIFT_TOLERANCE : Rat := 1

/-- The observable state of the page's video element that the sync controller
reads and writes. -/
structure Player where
  currentTime : Rat
  playbackRate : Rat
  paused : Bool
deriving DecidableEq, Repr

/-- The content-script closure state used by the sync logic:
`isSyncing` (the suspend-echo flag), `isInParty`, `lastSyncTime`. -/
structure ContentState where
  isSyncing : Bool
  isInParty : Bool
  lastSyncTime : Nat
  player : Player
deriving DecidableEq, Repr

/-- The four native video events hooked by `attachVideoListeners`. -/
inductive LocalEvent where
  | play
  | pause
  | seeked
  | ratechange
deriving DecidableEq, Repr

/-- Outbound `sync-event` payloads, as built by `handlePlay`, `handlePause`,
`handleSeeked` and `handleRateChange` from the live player fields. -/
inductive OutSync where
  | play (currentTime playbackRate : Rat)
  | pause (currentTime : Rat)
  | seek (currentTime : Rat)
  | ratechange (playbackRate currentTime : Rat)
deriving DecidableEq, Repr

/-- The payload the handler for one native event sends. -/
def localEventMsg (p : Player) : LocalEvent → OutSync
  | .play => .play p.currentTime p.playbackRate
  | .pause => .pause p.currentTime
  | .seeked => .seek p.currentTime
  | .ratechange => .ratechange p.playbackRate p.currentTime

/-- The shared body of `handlePlay` / `handlePause` / `handleSeeked` /
`handleRateChange` (all four have the identical guard sequence):
return silently when `isSyncing` or not in a party, when an ad is playing, or
within `SYNC_COOLDOWN` of the last outbound event; otherwise stamp
`lastSyncTime = now` and emit the one sync message. -/
def handleLocalEvent (ev : LocalEvent) (st : ContentState) (adPlaying : Bool)
    (now : Nat) : ContentState × List OutSync :=
  if st.isSyncing || !st.isInParty then (st, [])
  else if adPlaying then (st, [])
  else if now - st.lastSyncTime < SYNC_COOLDOWN then (st, [])
  else ({ st with lastSyncTime := now }, [localEventMsg st.player ev])

/-- The guarded drift correction repeated in the `play`, `pause` and
`ratechange` cases: `if (data.currentTime !== undefined) { const timeDiff =
Math.abs(videoElement.currentTime - data.currentTime); if (timeDiff >
TIME_DRIFT_TOLERANCE) videoElement.currentTime = data.currentTime; }`. -/
def driftCorrect (p : Player) (ct : Option Rat) : Player :=
  match ct with
  | some t =>
    if |p.currentTime - t| > TIME_DRIFT_TOLERANCE then { p with currentTime := t }
    else p
  | none => p

/-- The `play` case's rate update:
`if (data.playbackRate && videoElement.playbackRate !== data.playbackRate)`. -/
def playApplyRate (p : Player) (pr : Option Rat) : Player :=
  match pr with
  | some r =>
    if r ≠ 0 && p.playbackRate ≠ r then { p with playbackRate := r } else p
  | none => p

/-- The `ratechange` case's rate update:
`if (data.playbackRate !== undefined && videoElement.playbackRate !== data.playbackRate)`. -/
def rateApplyRate (p : Player) (pr : Option Rat) : Player :=
  match pr with
  | some r => if p.playbackRate ≠ r then { p with playbackRate := r } else p
  | none => p

/-- The player mutation performed inside `applySyncEvent`'s `switch`
(the `try` body, run with `isSyncing` already set). -/
def applySyncBody (p : Player) (action : String) (data : SyncData) : Player :=
  if action = "play" then
    let p1 := driftCorrect p data.currentTime
    let p2 := playApplyRate p1 data.playbackRate
    if p2.paused then { p2 with paused := false } else p2
  else if action = "pause" then
    let p1 := driftCorrect p data.currentTime
    if !p1.paused then { p1 with paused := true } else p1
  else if action = "seek" then
    -- the `seek` case sets `currentTime` unconditionally, with no drift check
    match data.currentTime with
    | some t => { p with currentTime := t }
    | none => p
  else if action = "ratechange" then
    let p1 := rateApplyRate p data.playbackRate
    driftCorrect p1 data.currentTime
  else p

/-- content.js `applySyncEvent`: bail out when no video element is attached or
an ad is playing; otherwise set `isSyncing = true` first, run the player
mutation, and schedule `isSyncing = false` for `now + SYNC_COOLDOWN`
(the `setTimeout` in the `finally` block).  The second component is the
absolute time at which the scheduled clear fires (`none` when nothing was
scheduled). -/
def applySyncEvent (st : ContentState) (videoPresent adPlaying : Bool)
    (action : String) (data : SyncData) (now : Nat) :
    ContentState × Option Nat :=
  if !videoPresent then (st, none)
  else if adPlaying then (st, none)
  else
    let stFlag := { st with isSyncing := true }
    ({ stFlag with player := applySyncBody stFlag.player action data },
     some (now + SYNC_COOLDOWN))

/-- The `setTimeout` callback scheduled by `applySyncEvent`'s `finally`. -/
def clearSyncFlag (st : ContentState) : ContentState :=
  { st with isSyncing := false }

/-! ## Association-list lemmas -/

theorem mapGet_mapSet_self {α : Type} (m : List (String × α)) (k : String)
    (v : α) : mapGet (mapSet m k v) k = some v := by
  induction m with
  | nil => simp [mapSet, mapGet]
  | cons e rest ih =>
    obtain ⟨k', v'⟩ := e
    by_cases h : k' = k
    · subst h; simp [mapSet, mapGet]
    · simp [mapSet, mapGet, h, ih]

theorem mapGet_mapSet_ne {α : Type} (m : List (String × α)) {k c : String}
    (h : k ≠ c) (v : α) : mapGet (mapSet m k v) c = mapGet m c := by
  induction m with
  | nil => simp [mapSet, mapGet, h]
  | cons e rest ih =>
    obtain ⟨k', v'⟩ := e
    by_cases h' : k' = k
    · subst h'; simp [mapSet, mapGet, h]
    · simp only [mapSet, if_neg h']
      by_cases h'' : k' = c <;> simp [mapGet, h'', ih]

theorem mapGet_mapDelete_self {α : Type} (m : List (String × α)) (k : String) :
    mapGet (mapDelete m k) k = none := by
  induction m with
  | nil => simp [mapDelete, mapGet]
  | cons e rest ih =>
    obtain ⟨k', v'⟩ := e
    by_cases h : k' = k
    · subst h; simp [mapDelete, ih]
    · simp [mapDelete, mapGet, h, ih]

theorem mapGet_mapDelete_ne {α : Type} (m : List (String × α)) {k c : String}
    (h : k ≠ c) : mapGet (mapDelete m k) c = mapGet m c := by
  induction m with
  | nil => simp [mapDelete]
  | cons e rest ih =>
    obtain ⟨k', v'⟩ := e
    by_cases h' : k' = k
    · subst h'
      simp [mapDelete, mapGet, if_neg h, ih]
    · simp only [mapDelete, if_neg h', mapGet]
      by_cases h'' : k' = c
      · simp [h'']
      · simp [h'', ih]

theorem mem_mapSet_self {α : Type} (m : List (String × α)) (k : String)
    (v : α) : (k, v) ∈ mapSet m k v := by
  induction m with
  | nil => simp [mapSet]
  | cons e rest ih =>
    obtain ⟨k', v'⟩ := e
    by_cases h : k' = k
    · subst h; simp [mapSet]
    · simp only [mapSet, if_neg h]
      exact List.mem_cons_of_mem _ ih

theorem mapGet_eq_none_of_not_mem_keys {α : Type} (m : List (String × α))
    (k : String) (h : k ∉ m.map Prod.fst) : mapGet m k = none := by
  induction m with
  | nil => rfl
  | cons e rest ih =>
    obtain ⟨k', v'⟩ := e
    simp only [List.map_cons, List.mem_cons, not_or] at h
    have h' : k' ≠ k := fun hh => h.1 hh.symm
    simp [mapGet, h', ih h.2]

theorem mapGet_filter_of_true {α : Type} {m : List (String × α)}
    {pred : String × α → Bool} {c : String} {p : α}
    (hget : mapGet m c = some p) (hp : pred (c, p) = true) :
    mapGet (m.filter pred) c = some p := by
  induction m with
  | nil => simp [mapGet] at hget
  | cons e rest ih =>
    obtain ⟨k, v⟩ := e
    by_cases h : k = c
    · subst h
      simp only [mapGet, if_pos rfl] at hget
      obtain rfl : v = p := Option.some.inj hget
      simp [List.filter_cons, hp, mapGet]
    · simp only [mapGet, if_neg h] at hget
      cases hkv : pred (k, v) <;> simp [List.filter_cons, hkv, mapGet, h, ih hget]

theorem mapGet_filter_of_false {α : Type} {m : List (String × α)}
    {pred : String × α → Bool} {c : String} {p : α}
    (hnd : (m.map Prod.fst).Nodup) (hget : mapGet m c = some p)
    (hp : pred (c, p) = false) : mapGet (m.filter pred) c = none := by
  induction m with
  | nil => rfl
  | cons e rest ih =>
    obtain ⟨k, v⟩ := e
    simp only [List.map_cons, List.nodup_cons] at hnd
    by_cases h : k = c
    · subst h
      simp only [mapGet, if_pos rfl] at hget
      obtain rfl : v = p := Option.some.inj hget
      simp only [List.filter_cons, hp]
      refine mapGet_eq_none_of_not_mem_keys _ _ (fun hmem => hnd.1 ?_)
      obtain ⟨e', he', rfl⟩ := List.mem_map.mp hmem
      exact List.mem_map.mpr ⟨e', List.mem_of_mem_filter he', rfl⟩
    · simp only [mapGet, if_neg h] at hget
      cases hkv : pred (k, v) <;>
        simp [List.filter_cons, hkv, mapGet, h, ih hnd.2 hget]

/-! ## Concrete demonstration states -/

def demoBob : Participant := { username := "bob", videoUrl := none }

def demoConnCarl : ConnState :=
  { clientId := "carl-id", currentPartyCode := none, username := none, isAlive := true }

def demoPartyA : Party :=
  { participants := [("bob-id", demoBob)], video := none, passwordHash := none,
    persistent := false, createdAt := 0, lastActivity := 0 }

def demoPartiesA : PartiesMap := [("AAAAAA", demoPartyA)]

def demoProtParty : Party :=
  { participants := [("bob-id", demoBob)], video := none,
    passwordHash := some "pw", persistent := false, createdAt := 0, lastActivity := 0 }

def demoProtParties : PartiesMap := [("PPPPPP", demoProtParty)]

/-! ## Delivery characterization -/

theorem mem_filterMap_guard (l : List (String × Participant)) (f : String → Bool)
    (msg : ServerMsg) (cid : String) (m : ServerMsg) :
    ((cid, m) ∈ l.filterMap (fun e => if f e.1 then some (e.1, msg) else none)) ↔
      (m = msg ∧ f cid = true ∧ ∃ part, (cid, part) ∈ l) := by
  simp only [List.mem_filterMap]
  constructor
  · rintro ⟨⟨c', part⟩, hmem, hf⟩
    by_cases hc : f c' = true
    · rw [if_pos hc] at hf
      obtain ⟨h1, h2⟩ := Prod.mk.inj (Option.some.inj hf)
      subst h1
      exact ⟨h2.symm, hc, part, hmem⟩
    · rw [if_neg hc] at hf
      exact absurd hf (by simp)
  · rintro ⟨rfl, hc, part, hmem⟩
    exact ⟨(cid, part), hmem, by rw [if_pos hc]⟩

/-- C5: for every party code, message and excluded connection id,
`broadcastToParty` (the source's broadcastExcluding) delivers the message
exactly to the currently writable participants of that party other than the
excluded connection — in particular never to the excluded connection — while
`broadcastToAllInParty` delivers it exactly to every writable participant,
the sender included; a participant whose channel is not writable
(`openOf cid = false`) receives nothing in either mode, and the broadcast
returns only a delivery list, with no queueing or retry state. -/
theorem C5_broadcast_delivery :
    ∀ (parties : PartiesMap) (code : String) (msg : ServerMsg) (sender : String)
      (openOf : String → Bool) (cid : String) (m : ServerMsg),
      ((cid, m) ∈ broadcastToParty parties code msg (some sender) openOf ↔
        (m = msg ∧ cid ≠ sender ∧ openOf cid = true ∧
          ∃ party part, mapGet parties code = some party ∧
            (cid, part) ∈ party.participants)) ∧
      ((cid, m) ∈ broadcastToAllInParty parties code msg openOf ↔
        (m = msg ∧ openOf cid = true ∧
          ∃ party part, mapGet parties code = some party ∧
            (cid, part) ∈ party.participants)) := by
  intro parties code msg sender openOf cid m
  constructor
  · unfold broadcastToParty
    cases h : mapGet parties code with
    | none => simp [h]
    | some party =>
      rw [mem_filterMap_guard party.participants
        (fun c => senderPasses (some sender) c && openOf c) msg cid m]
      simp [senderPasses, h, and_assoc]
  · unfold broadcastToAllInParty
    cases h : mapGet parties code with
    | none => simp [h]
    | some party =>
      rw [mem_filterMap_guard party.participants (fun c => openOf c) msg cid m]
      simp [h]

/-- C9: a client `ping` message only emits a `pong` reply to that connection —
the party registry and the whole connection state (in particular the `isAlive`
liveness mark consulted by the heartbeat) are unchanged and nothing is
broadcast; only the transport-level `pong` handler sets `isAlive`, and the
periodic heartbeat terminates a connection exactly when that mark was not
refreshed since the previous probe. -/
theorem C9_ping_pong_only :
    ∀ (hash : String → String) (openOf : String → Bool) (newCode : String)
      (parties : PartiesMap) (conn : ConnState) (ts : Nat),
      handleMessage hash openOf newCode parties conn .ping ts =
        (parties, conn, [(conn.clientId, .pong ts)]) ∧
      (∀ c : ConnState, handlePong c = { c with isAlive := true }) ∧
      (∀ c : ConnState, heartbeatStep c =
        if c.isAlive then some { c with isAlive := false } else none) := by
  intro hash openOf newCode parties conn ts
  refine ⟨rfl, fun c => rfl, fun c => ?_⟩
  cases hc : c.isAlive <;> simp [heartbeatStep, hc]

/-- C3: joining a password-protected party with a non-matching (or missing)
password answers `Incorrect password` and changes nothing but the connection's
display-name variable: the parties map is returned untouched (so neither the
target party's membership nor the joining connection's membership in any other
party changes — the password check precedes the removal from the previous
party) and the only send is the error to the joining connection. -/
theorem C3_wrong_password_no_mutation :
    ∀ (hash : String → String) (openOf : String → Bool) (newCode : String)
      (parties : PartiesMap) (conn : ConnState) (pc : String)
      (mu mpw : Option String) (party : Party) (ts : Nat),
      mapGet parties pc = some party →
      jsStrTruthy party.passwordHash = true →
      hashPasswordJS hash mpw ≠ party.passwordHash →
      handleMessage hash openOf newCode parties conn (.join pc mu mpw) ts =
        (parties, { conn with username := some (jsUsernameOr mu) },
         [(conn.clientId, .errorMsg "Incorrect password" ts)]) := by
  intro hash openOf newCode parties conn pc mu mpw party ts hget htruthy hne
  simp only [handleMessage]
  rw [hget]
  simp [htruthy, hne, bne_iff_ne]

theorem C3_wrong_password_witness :
    handleMessage (fun s => s) (fun _ => true) "XXXXXX" demoProtParties
        demoConnCarl (.join "PPPPPP" (some "carl") (some "wrong")) 9 =
      (demoProtParties, { demoConnCarl with username := some "carl" },
       [("carl-id", .errorMsg "Incorrect password" 9)]) :=
  C3_wrong_password_no_mutation (fun s => s) (fun _ => true) "XXXXXX"
    demoProtParties demoConnCarl "PPPPPP" (some "carl") (some "wrong")
    demoProtParty 9 (by decide) (by decide) (by decide)

/-- C4 counterexample: a `video-info` message from a connection that is in no
party produces NO reply at all — `(parties, conn, [])`, with no `error`
message — because the `video-info` case silently falls through when
`currentPartyCode` is unset, contradicting the claim that the server responds
with an error. -/
theorem C4_videoInfo_silent_counterexample :
    handleMessage (fun s => s) (fun _ => true) "XXXXXX" demoPartiesA demoConnCarl
        (.videoInfo { url := some "https://v.example/w", title := "t", duration := 0 }) 3 =
      (demoPartiesA, demoConnCarl, []) := by
  rfl

/-- C4 (amended): from a connection with no active party, a `sync` message is
answered with the `Not in a party` error and makes no state change and no
broadcast; a `video-info` message is silently ignored — no state change and no
broadcast, but also no error reply. -/
theorem C4_not_in_party :
    ∀ (hash : String → String) (openOf : String → Bool) (newCode : String)
      (parties : PartiesMap) (conn : ConnState) (action : String)
      (data : SyncData) (vdata : VideoInfo) (ts : Nat),
      conn.currentPartyCode = none →
      handleMessage hash openOf newCode parties conn (.sync action data) ts =
        (parties, conn, [(conn.clientId, .errorMsg "Not in a party" ts)]) ∧
      handleMessage hash openOf newCode parties conn (.videoInfo vdata) ts =
        (parties, conn, []) := by
  intro hash openOf newCode parties conn action data vdata ts h
  constructor <;> (simp only [handleMessage]; rw [h])

theorem C4_not_in_party_witness :
    handleMessage (fun s => s) (fun _ => true) "XXXXXX" demoPartiesA demoConnCarl
        (.sync "play" { currentTime := some 1, playbackRate := none }) 3 =
      (demoPartiesA, demoConnCarl,
       [("carl-id", .errorMsg "Not in a party" 3)]) :=
  (C4_not_in_party (fun s => s) (fun _ => true) "XXXXXX" demoPartiesA
    demoConnCarl "play" { currentTime := some 1, playbackRate := none }
    { url := none, title := "", duration := 0 } 3 rfl).1

/-- C1 counterexample: `generatePartyCode` can return the code of a live party
(all draws 0 give "AAAAAA") and the `create-party` handler installs the new
party at that code without any retry, displacing the existing party: before
the create, live party "AAAAAA" contains participant "bob-id"; after it, the
party at "AAAAAA" no longer does.  This falsifies "the code is distinct from
the code of every party live at the moment of creation (no existing party is
displaced)". -/
theorem C1_create_collision_displaces :
    generatePartyCode (fun _ => (0 : Fin 32)) = "AAAAAA" ∧
    mapHas demoPartiesA "AAAAAA" = true ∧
    (mapGet demoPartiesA "AAAAAA").map (fun p => mapHas p.participants "bob-id") =
      some true ∧
    (mapGet (handleMessage (fun s => s) (fun _ => true) "AAAAAA" demoPartiesA
        demoConnCarl (.createParty (some "carl") none false) 7).1 "AAAAAA").map
      (fun p => mapHas p.participants "bob-id") = some false := by
  refine ⟨?_, ?_, ?_, ?_⟩ <;> rfl

/-- C1 (amended): every generated party code is exactly 6 characters, each
drawn from the restricted alphabet `ABCDEFGHJKLMNPQRSTUVWXYZ23456789`; but
generation does NOT retry on collision — the `create-party` handler
unconditionally installs the creator's fresh one-member party at the generated
code, so a colliding code replaces (displaces) the party previously live under
it rather than being regenerated. -/
theorem C1_amended_code_format :
    ∀ draws : Fin 6 → Fin 32,
      (generatePartyCode draws).length = 6 ∧
      (∀ ch ∈ (generatePartyCode draws).toList, ch ∈ partyCodeChars) ∧
      ∀ (hash : String → String) (openOf : String → Bool) (parties : PartiesMap)
        (conn : ConnState) (mu mpw : Option String) (mper : Bool) (ts : Nat),
        mapGet (handleMessage hash openOf (generatePartyCode draws) parties conn
            (.createParty mu mpw mper) ts).1 (generatePartyCode draws) =
          some { participants := [(conn.clientId, { username := jsUsernameOr mu, videoUrl := none })]
                 video := none
                 passwordHash := hashPasswordJS hash mpw
                 persistent := mper
                 createdAt := ts
                 lastActivity := ts } := by
  intro draws
  refine ⟨rfl, ?_, ?_⟩
  · intro ch hch
    have hch' : ch ∈ (List.finRange 6).map
        (fun i => partyCodeChars.get (Fin.cast partyCodeChars_length.symm (draws i))) := hch
    obtain ⟨i, _, rfl⟩ := List.mem_map.mp hch'
    exact List.get_mem _ _ _
  · intro hash openOf parties conn mu mpw mper ts
    simp only [handleMessage]
    exact mapGet_mapSet_self _ _ _

theorem C1_amended_witness :
    (generatePartyCode (fun _ => (1 : Fin 32))).length = 6 ∧
    'B' ∈ partyCodeChars := by
  refine ⟨(C1_amended_code_format (fun _ => (1 : Fin 32))).1, ?_⟩
  exact (C1_amended_code_format (fun _ => (1 : Fin 32))).2.1 'B' (by decide)

def demoEmptyNonPersistent : Party :=
  { participants := [], video := none, passwordHash := none,
    persistent := false, createdAt := 0, lastActivity := 0 }

def demoEmptyPersistent : Party :=
  { participants := [], video := none, passwordHash := none,
    persistent := true, createdAt := 0, lastActivity := 100 }

/-- C2 counterexample: `create-party` is one of the registry operations, and a
colliding generated code makes it delete a party that still has a participant:
before, the registry maps "AAAAAA" to a party with one participant; after the
create, the registry holds only the creator's fresh party, so the invariant
"a party with one or more participants is never deleted" fails at the create
operation. -/
theorem C2_create_deletes_nonempty_party :
    demoPartyA.participants.length ≥ 1 ∧
    mapGet demoPartiesA "AAAAAA" = some demoPartyA ∧
    (handleMessage (fun s => s) (fun _ => true) "AAAAAA" demoPartiesA demoConnCarl
        (.createParty (some "dave") none false) 11).1 =
      [("AAAAAA",
        { participants := [("carl-id", { username := "dave", videoUrl := none })],
          video := none, passwordHash := none, persistent := false,
          createdAt := 11, lastActivity := 11 })] := by
  refine ⟨?_, rfl, rfl⟩
  decide

/-- C2 (amended): the lifecycle invariant holds for every deletion path of the
registry — join, leave, disconnect cleanup and the idle sweep — though not for
a colliding create: (1) `cleanupEmptyParty` never removes a party that still
has participants, (2) neither does the idle sweep, (3) an empty non-persistent
party is deleted immediately by `cleanupEmptyParty`, (4) a join against an
absent code answers `Party not found` with no state change, (5) an empty
persistent party is retained with `lastActivity` stamped to the moment it
became empty, (6) the sweep deletes a persistent empty party exactly when its
idle time exceeds 24 hours, and (7) a leave by the sole member of a
non-persistent party deletes that party at once. -/
theorem C2_lifecycle_invariant :
    (∀ (parties : PartiesMap) (code : String) (now : Nat) (c : String) (p : Party),
      mapGet parties c = some p → p.participants ≠ [] →
      mapGet (cleanupEmptyParty parties code now) c = some p) ∧
    (∀ (parties : PartiesMap) (now : Nat) (c : String) (p : Party),
      mapGet parties c = some p → p.participants ≠ [] →
      mapGet (cleanupIdleParties parties now) c = some p) ∧
    (∀ (parties : PartiesMap) (code : String) (now : Nat) (p : Party),
      mapGet parties code = some p → p.participants = [] → p.persistent = false →
      mapGet (cleanupEmptyParty parties code now) code = none) ∧
    (∀ (hash : String → String) (openOf : String → Bool) (newCode : String)
       (parties : PartiesMap) (conn : ConnState) (pc : String)
       (mu mpw : Option String) (ts : Nat),
      mapGet parties pc = none →
      handleMessage hash openOf newCode parties conn (.join pc mu mpw) ts =
        (parties, { conn with username := some (jsUsernameOr mu) },
         [(conn.clientId, .errorMsg "Party not found" ts)])) ∧
    (∀ (parties : PartiesMap) (code : String) (now : Nat) (p : Party),
      mapGet parties code = some p → p.participants = [] → p.persistent = true →
      mapGet (cleanupEmptyParty parties code now) code =
        some { p with lastActivity := now }) ∧
    (∀ (parties : PartiesMap) (now : Nat) (c : String) (p : Party),
      (parties.map Prod.fst).Nodup →
      mapGet parties c = some p → p.persistent = true → p.participants = [] →
      mapGet (cleanupIdleParties parties now) c =
        (if now - p.lastActivity > PARTY_IDLE_TIMEOUT then none else some p)) ∧
    (∀ (hash : String → String) (openOf : String → Bool) (newCode : String)
       (parties : PartiesMap) (conn : ConnState) (cur : String) (p : Party) (ts : Nat),
      conn.currentPartyCode = some cur →
      mapGet parties cur = some p → p.persistent = false →
      mapDelete p.participants conn.clientId = [] →
      mapGet (handleMessage hash openOf newCode parties conn .leave ts).1 cur = none) := by
  refine ⟨?_, ?_, ?_, ?_, ?_, ?_, ?_⟩
  · intro parties code now c p hget hne
    unfold cleanupEmptyParty
    cases hq : mapGet parties code with
    | none => exact hget
    | some q =>
      dsimp only
      by_cases hlen : q.participants.length = 0
      · by_cases hcc : c = code
        · subst hcc
          rw [hget] at hq
          obtain rfl : p = q := Option.some.inj hq
          exact absurd (List.length_eq_zero.mp hlen) hne
        · rw [if_pos hlen]
          by_cases hp : q.persistent
          · rw [if_pos hp, mapGet_mapSet_ne _ (fun hh => hcc hh.symm), hget]
          · rw [if_neg hp, mapGet_mapDelete_ne _ (fun hh => hcc hh.symm), hget]
      · rw [if_neg hlen]; exact hget
  · intro parties now c p hget hne
    refine mapGet_filter_of_true hget ?_
    have : partyIdleExpired p now = false := by
      simp [partyIdleExpired, List.length_eq_zero, hne]
    simp [this]
  · intro parties code now p hget hempty hpers
    unfold cleanupEmptyParty
    rw [hget]
    dsimp only
    rw [if_pos (by simp [hempty]), if_neg (by simp [hpers])]
    exact mapGet_mapDelete_self _ _
  · intro hash openOf newCode parties conn pc mu mpw ts hget
    simp only [handleMessage]
    rw [hget]
  · intro parties code now p hget hempty hpers
    unfold cleanupEmptyParty
    rw [hget]
    dsimp only
    rw [if_pos (by simp [hempty]), if_pos (by simp [hpers])]
    exact mapGet_mapSet_self _ _ _
  · intro parties now c p hnd hget hpers hempty
    by_cases hidle : now - p.lastActivity > PARTY_IDLE_TIMEOUT
    · rw [if_pos hidle]
      refine mapGet_filter_of_false hnd hget ?_
      have : partyIdleExpired p now = true := by
        simp [partyIdleExpired, hpers, hempty, hidle]
      simp [this]
    · rw [if_neg hidle]
      refine mapGet_filter_of_true hget ?_
      have : partyIdleExpired p now = false := by
        simp [partyIdleExpired, hpers, hempty, hidle]
      simp [this]
  · intro hash openOf newCode parties conn cur p ts hcur hget hpers hdel
    simp only [handleMessage]
    rw [hcur]
    dsimp only
    have hhas : mapHas parties cur = true := by simp [mapHas, hget]
    rw [if_pos hhas]
    simp only [removeAndCleanup, removeParticipant]
    rw [hget]
    dsimp only
    rw [hdel]
    simp only [cleanupEmptyParty, mapGet_mapSet_self, List.length_nil]
    rw [if_pos trivial, if_neg (by simp [hpers])]
    exact mapGet_mapDelete_self _ _

theorem C2_lifecycle_witness :
    mapGet (cleanupEmptyParty [("CCCCCC", demoEmptyNonPersistent)] "CCCCCC" 5)
      "CCCCCC" = none ∧
    mapGet (cleanupEmptyParty [("DDDDDD", demoEmptyPersistent)] "DDDDDD" 5)
      "DDDDDD" = some { demoEmptyPersistent with lastActivity := 5 } ∧
    mapGet (cleanupIdleParties [("DDDDDD", demoEmptyPersistent)]
      (100 + PARTY_IDLE_TIMEOUT + 1)) "DDDDDD" = none ∧
    mapGet (cleanupIdleParties [("DDDDDD", demoEmptyPersistent)]
      (100 + PARTY_IDLE_TIMEOUT)) "DDDDDD" = some demoEmptyPersistent := by
  refine ⟨?_, ?_, ?_, ?_⟩
  · exact C2_lifecycle_invariant.2.2.1 _ "CCCCCC" 5 _ rfl (by decide) rfl
  · exact C2_lifecycle_invariant.2.2.2.2.1 _ "DDDDDD" 5 _ rfl (by decide) rfl
  · have h := C2_lifecycle_invariant.2.2.2.2.2.1
      [("DDDDDD", demoEmptyPersistent)] (100 + PARTY_IDLE_TIMEOUT + 1) "DDDDDD"
      demoEmptyPersistent (by decide) rfl rfl (by decide)
    rw [h, if_pos (by decide)]
  · have h := C2_lifecycle_invariant.2.2.2.2.2.1
      [("DDDDDD", demoEmptyPersistent)] (100 + PARTY_IDLE_TIMEOUT) "DDDDDD"
      demoEmptyPersistent (by decide) rfl rfl (by decide)
    rw [h, if_neg (by decide)]

/-- C8: plaintext passwords never reach server state or any server→client
message: (1) the party record stored by `create-party` holds exactly
`hashPassword(password)` in its `passwordHash` field and nothing else derived
from the password, (2) the `party-created` reply exposes only the boolean
`hasPassword`, and (3) the whole observable behaviour of `create-party` and
`join` — state and emitted messages — is a function of the password's one-way
hash alone: two passwords with equal hashes are indistinguishable (so every
join comparison is by hash equality).  (The `ServerMsg` type, transcribed from
every message the source constructs, has no password field at all.) -/
theorem C8_password_only_hash :
    ∀ (hash : String → String) (openOf : String → Bool) (newCode : String)
      (parties : PartiesMap) (conn : ConnState) (mu : Option String)
      (mper : Bool) (ts : Nat) (pw : Option String),
      (mapGet (handleMessage hash openOf newCode parties conn
          (.createParty mu pw mper) ts).1 newCode =
        some { participants := [(conn.clientId, { username := jsUsernameOr mu, videoUrl := none })]
               video := none
               passwordHash := hashPasswordJS hash pw
               persistent := mper
               createdAt := ts
               lastActivity := ts }) ∧
      ((handleMessage hash openOf newCode parties conn
          (.createParty mu pw mper) ts).2.2 =
        [(conn.clientId, .partyCreated newCode (jsUsernameOr mu)
            (jsStrTruthy (hashPasswordJS hash pw)) mper ts)]) ∧
      (∀ (pw2 : Option String) (pc : String),
        hashPasswordJS hash pw = hashPasswordJS hash pw2 →
        handleMessage hash openOf newCode parties conn (.createParty mu pw mper) ts =
          handleMessage hash openOf newCode parties conn (.createParty mu pw2 mper) ts ∧
        handleMessage hash openOf newCode parties conn (.join pc mu pw) ts =
          handleMessage hash openOf newCode parties conn (.join pc mu pw2) ts) := by
  intro hash openOf newCode parties conn mu mper ts pw
  refine ⟨?_, rfl, ?_⟩
  · simp only [handleMessage]
    exact mapGet_mapSet_self _ _ _
  · intro pw2 pc h
    constructor
    · simp only [handleMessage, h]
    · simp only [handleMessage, h]

theorem C8_password_witness :
    handleMessage (fun _ => "H") (fun _ => true) "EEEEEE" demoPartiesA
        demoConnCarl (.createParty (some "carl") (some "pw1") false) 4 =
      handleMessage (fun _ => "H") (fun _ => true) "EEEEEE" demoPartiesA
        demoConnCarl (.createParty (some "carl") (some "pw2") false) 4 :=
  ((C8_password_only_hash (fun _ => "H") (fun _ => true) "EEEEEE" demoPartiesA
      demoConnCarl (some "carl") false 4 (some "pw1")).2.2 (some "pw2") "AAAAAA"
      (by decide)).1

theorem participantEntry_noVideo (party : Party) (u : String) :
    participantEntry party { username := u, videoUrl := none } =
      { username := u, videoUrl := none, synced := false } := by
  unfold participantEntry jsOrNull
  cases hp : partyVideoUrlOf party with
  | none => simp [jsStrTruthy]
  | some s =>
    by_cases hs : s = "" <;> simp [jsStrTruthy, hs]

/-- C10: on every successful join — the target party exists, the password
check passes, and the party still exists after the removal from the previous
party — the joining participant is stored with `videoUrl` reset to `null`,
even when the same connection was already a member of a party (the target
party included) with a non-null `videoUrl`; consequently the `joined` reply
and the `participants` broadcast of that join list the joining participant
with `videoUrl = null` and `synced = false`. -/
theorem C10_join_resets_videoUrl :
    ∀ (hash : String → String) (openOf : String → Bool) (newCode : String)
      (parties : PartiesMap) (conn : ConnState) (pc : String)
      (mu mpw : Option String) (party jp : Party) (ts : Nat),
      mapGet parties pc = some party →
      (jsStrTruthy party.passwordHash &&
        hashPasswordJS hash mpw != party.passwordHash) = false →
      mapGet (joinRemovePrevious openOf parties conn ts).1 pc = some jp →
      (mapGet (handleMessage hash openOf newCode parties conn
          (.join pc mu mpw) ts).1 pc =
        some { jp with
                 participants := mapSet jp.participants conn.clientId
                   { username := jsUsernameOr mu, videoUrl := none }
                 lastActivity := ts }) ∧
      (mapGet (mapSet jp.participants conn.clientId
          { username := jsUsernameOr mu, videoUrl := none }) conn.clientId =
        some { username := jsUsernameOr mu, videoUrl := none }) ∧
      (({ username := jsUsernameOr mu, videoUrl := none, synced := false } :
          ParticipantEntry) ∈
        getParticipantList (handleMessage hash openOf newCode parties conn
          (.join pc mu mpw) ts).1 pc) ∧
      ((conn.clientId,
        ServerMsg.joined pc (jsUsernameOr mu)
          (getParticipantList (handleMessage hash openOf newCode parties conn
            (.join pc mu mpw) ts).1 pc)
          jp.video ts) ∈
        (handleMessage hash openOf newCode parties conn
          (.join pc mu mpw) ts).2.2) := by
  intro hash openOf newCode parties conn pc mu mpw party jp ts hget hpass hjp
  have hres : handleMessage hash openOf newCode parties conn (.join pc mu mpw) ts =
      (mapSet (joinRemovePrevious openOf parties conn ts).1 pc
        { jp with
            participants := mapSet jp.participants conn.clientId
              { username := jsUsernameOr mu, videoUrl := none }
            lastActivity := ts },
       { conn with username := some (jsUsernameOr mu),
                   currentPartyCode := some pc },
       (joinRemovePrevious openOf parties conn ts).2 ++
         [(conn.clientId,
           ServerMsg.joined pc (jsUsernameOr mu)
             (getParticipantList
               (mapSet (joinRemovePrevious openOf parties conn ts).1 pc
                 { jp with
                     participants := mapSet jp.participants conn.clientId
                       { username := jsUsernameOr mu, videoUrl := none }
                     lastActivity := ts }) pc)
             jp.video ts)] ++
         broadcastToAllInParty
           (mapSet (joinRemovePrevious openOf parties conn ts).1 pc
             { jp with
                 participants := mapSet jp.participants conn.clientId
                   { username := jsUsernameOr mu, videoUrl := none }
                 lastActivity := ts }) pc
           (.participantsMsg
             (getParticipantList
               (mapSet (joinRemovePrevious openOf parties conn ts).1 pc
                 { jp with
                     participants := mapSet jp.participants conn.clientId
                       { username := jsUsernameOr mu, videoUrl := none }
                     lastActivity := ts }) pc) ts) openOf) := by
    simp only [handleMessage]
    rw [hget]
    dsimp only
    rw [if_neg (by simp [hpass])]
    rw [hjp]
  refine ⟨?_, mapGet_mapSet_self _ _ _, ?_, ?_⟩
  · rw [hres]
    exact mapGet_mapSet_self _ _ _
  · rw [hres]
    show _ ∈ getParticipantList (mapSet (joinRemovePrevious openOf parties conn ts).1 pc _) pc
    unfold getParticipantList
    rw [mapGet_mapSet_self]
    dsimp only
    exact List.mem_map.mpr
      ⟨(conn.clientId, { username := jsUsernameOr mu, videoUrl := none }),
       mem_mapSet_self _ _ _, participantEntry_noVideo _ _⟩
  · rw [hres]
    refine List.mem_append.mpr (Or.inl (List.mem_append.mpr (Or.inr ?_)))
    simp

def joinDemoCarl : Participant := { username := "carl", videoUrl := some "https://v/1" }

def joinDemoParty : Party :=
  { participants := [("bob-id", demoBob), ("carl-id", joinDemoCarl)],
    video := none, passwordHash := none, persistent := false,
    createdAt := 0, lastActivity := 0 }

def joinDemoParties : PartiesMap := [("JJJJJJ", joinDemoParty)]

def joinDemoConn : ConnState :=
  { clientId := "carl-id", currentPartyCode := some "JJJJJJ",
    username := some "carl", isAlive := true }

def joinDemoJp : Party :=
  { participants := [("bob-id", demoBob)], video := none, passwordHash := none,
    persistent := false, createdAt := 0, lastActivity := 0 }

theorem C10_join_resets_witness :
    (mapGet (handleMessage (fun s => s) (fun _ => true) "XXXXXX" joinDemoParties
        joinDemoConn (.join "JJJJJJ" (some "carl") none) 9).1 "JJJJJJ" =
      some { joinDemoJp with
               participants := mapSet joinDemoJp.participants "carl-id"
                 { username := "carl", videoUrl := none }
               lastActivity := 9 }) ∧
    (({ username := "carl", videoUrl := none, synced := false } :
        ParticipantEntry) ∈
      getParticipantList (handleMessage (fun s => s) (fun _ => true) "XXXXXX"
        joinDemoParties joinDemoConn (.join "JJJJJJ" (some "carl") none) 9).1
        "JJJJJJ") := by
  have h := C10_join_resets_videoUrl (fun s => s) (fun _ => true) "XXXXXX"
    joinDemoParties joinDemoConn "JJJJJJ" (some "carl") none joinDemoParty
    joinDemoJp 9 (by decide) (by decide) (by decide)
  exact ⟨h.1, h.2.2.1⟩

/-- C6: applying any inbound remote event (with a video attached and no ad
playing) yields exactly the state obtained by setting the suspend-echo flag
`isSyncing` FIRST and running the player mutation from that flagged state; the
result still has the flag set, and the clearing callback is scheduled for
`now + SYNC_COOLDOWN`, a delay equal to (hence at least as long as) the
outbound cooldown; and every local player handler — including a native pause
callback fired synchronously while the flag is set — returns without emitting
any outbound sync message whenever `isSyncing` is set. -/
theorem C6_suspend_echo :
    ∀ (st : ContentState) (action : String) (data : SyncData) (now : Nat),
      (applySyncEvent st true false action data now).1 =
        { st with isSyncing := true,
                  player := applySyncBody st.player action data } ∧
      (applySyncEvent st true false action data now).1.isSyncing = true ∧
      (applySyncEvent st true false action data now).2 =
        some (now + SYNC_COOLDOWN) ∧
      SYNC_COOLDOWN ≤ SYNC_COOLDOWN ∧
      (∀ (ev : LocalEvent) (s : ContentState) (ad : Bool) (t : Nat),
        s.isSyncing = true → handleLocalEvent ev s ad t = (s, [])) := by
  intro st action data now
  refine ⟨rfl, rfl, rfl, le_refl _, ?_⟩
  intro ev s ad t hs
  simp [handleLocalEvent, hs]

theorem C6_suspend_echo_witness :
    handleLocalEvent .pause
      { isSyncing := true, isInParty := true, lastSyncTime := 0,
        player := { currentTime := 5, playbackRate := 1, paused := false } }
      false 1000 =
      ({ isSyncing := true, isInParty := true, lastSyncTime := 0,
         player := { currentTime := 5, playbackRate := 1, paused := false } },
       []) :=
  (C6_suspend_echo
    { isSyncing := false, isInParty := true, lastSyncTime := 0,
      player := { currentTime := 5, playbackRate := 1, paused := false } }
    "pause" { currentTime := none, playbackRate := none } 0).2.2.2.2
    .pause _ false 1000 rfl

theorem driftCorrect_of_le (p : Player) (t : Rat)
    (h : |p.currentTime - t| ≤ TIME_DRIFT_TOLERANCE) :
    driftCorrect p (some t) = p := by
  unfold driftCorrect
  dsimp only
  rw [if_neg (not_lt.mpr h)]

theorem playApplyRate_currentTime (p : Player) (pr : Option Rat) :
    (playApplyRate p pr).currentTime = p.currentTime := by
  unfold playApplyRate
  cases pr with
  | none => rfl
  | some r =>
    dsimp only
    by_cases hc : (r ≠ 0 && p.playbackRate ≠ r) = true
    · rw [if_pos hc]
    · rw [if_neg hc]

theorem rateApplyRate_currentTime (p : Player) (pr : Option Rat) :
    (rateApplyRate p pr).currentTime = p.currentTime := by
  unfold rateApplyRate
  cases pr with
  | none => rfl
  | some r =>
    dsimp only
    by_cases hc : p.playbackRate ≠ r
    · rw [if_pos hc]
    · rw [if_neg hc]

/-- C7 counterexample: an inbound `seek` whose position differs from the local
position by 1/2 second — at or below the drift tolerance of 1 second — still
moves the local position: the `seek` case of `applySyncEvent` sets
`currentTime` unconditionally, so "the local position correction is performed
only if the difference exceeds the drift tolerance" is false for seek events. -/
theorem C7_seek_ignores_tolerance :
    |(10 : Rat) - 21 / 2| ≤ TIME_DRIFT_TOLERANCE ∧
    applySyncBody { currentTime := 10, playbackRate := 1, paused := false }
        "seek" { currentTime := some (21 / 2), playbackRate := none } =
      { currentTime := 21 / 2, playbackRate := 1, paused := false } ∧
    (21 / 2 : Rat) ≠ 10 := by
  refine ⟨?_, ?_, by norm_num⟩
  · rw [abs_le]
    constructor <;> norm_num [TIME_DRIFT_TOLERANCE]
  · simp [applySyncBody]

/-- C7 (amended): for inbound `play`, `pause` and `ratechange` events carrying
a position, the local position is corrected only when the difference exceeds
the drift tolerance — at or below the tolerance it is left unchanged — but an
inbound `seek` event sets the local position unconditionally, with no
tolerance check. -/
theorem C7_drift_tolerance :
    ∀ (p : Player) (data : SyncData) (t : Rat),
      data.currentTime = some t →
      ((|p.currentTime - t| ≤ TIME_DRIFT_TOLERANCE →
        (applySyncBody p "play" data).currentTime = p.currentTime ∧
        (applySyncBody p "pause" data).currentTime = p.currentTime ∧
        (applySyncBody p "ratechange" data).currentTime = p.currentTime) ∧
       (applySyncBody p "seek" data).currentTime = t) := by
  intro p data t hdata
  constructor
  · intro h
    refine ⟨?_, ?_, ?_⟩
    · simp only [applySyncBody, if_pos rfl]
      rw [hdata]
      dsimp only
      rw [driftCorrect_of_le p t h]
      by_cases hp : (playApplyRate p data.playbackRate).paused <;>
        simp [hp, playApplyRate_currentTime]
    · simp only [applySyncBody]
      rw [if_neg (by decide), if_pos (by decide), hdata]
      rw [driftCorrect_of_le p t h]
      by_cases hp : p.paused <;> simp [hp]
    · simp only [applySyncBody]
      rw [if_neg (by decide), if_neg (by decide), if_neg (by decide),
        if_pos (by decide), hdata]
      rw [driftCorrect_of_le _ t (by rw [rateApplyRate_currentTime]; exact h),
        rateApplyRate_currentTime]
  · simp only [applySyncBody]
    rw [if_neg (by decide), if_neg (by decide), if_pos (by decide), hdata]

theorem C7_drift_tolerance_witness :
    (applySyncBody { currentTime := 10, playbackRate := 1, paused := false }
        "pause" { currentTime := some (21 / 2), playbackRate := none }).currentTime
      = 10 ∧
    (applySyncBody { currentTime := 10, playbackRate := 1, paused := false }
        "seek" { currentTime := some (21 / 2), playbackRate := none }).currentTime
      = 21 / 2 := by
  have h := C7_drift_tolerance
    { currentTime := 10, playbackRate := 1, paused := false }
    { currentTime := some (21 / 2), playbackRate := none } (21 / 2) rfl
  refine ⟨(h.1 ?_).2.1, h.2⟩
  rw [abs_le]
  constructor <;> norm_num [TIME_DRIFT_TOLERANCE]
